import Mathlib

/-!
# Verification of the Random-Walk Metropolis-Hastings kernel (blackjax/mcmc/random_walk.py)

Shallow embedding of the RWMH kernel machinery.  Scalars produced by the
log-density function (and all derived energies, weights and acceptance
probabilities) follow IEEE-style semantics: a value is NaN, +infinity,
-infinity, or a finite real.  Comparisons involving NaN are false, as in
floating point.  The position type `P` and the RNG key type `K` are opaque
type parameters; RNG splitting and the uniform draw are supplied as
functions, mirroring the external `jax.random` collaborator.
-/

/-- An IEEE-style scalar: NaN, +∞, -∞ or a finite real.  Models the values a
JAX float computation can take (glossing rounding, which no claim concerns). -/
inductive FP where
  | nan : FP
  | inf : FP
  | ninf : FP
  | fin : ℝ → FP

namespace FP

/-- IEEE negation: `-NaN = NaN`, `-(±∞) = ∓∞`. -/
def neg : FP → FP
  | nan => nan
  | inf => ninf
  | ninf => inf
  | fin x => fin (-x)

/-- IEEE subtraction: NaN propagates, `∞ - ∞ = NaN`, `-∞ - (-∞) = NaN`. -/
def sub : FP → FP → FP
  | nan, _ => nan
  | _, nan => nan
  | inf, inf => nan
  | inf, _ => inf
  | ninf, ninf => nan
  | ninf, _ => ninf
  | fin _, inf => ninf
  | fin _, ninf => inf
  | fin x, fin y => fin (x - y)

/-- IEEE absolute value. -/
def abs : FP → FP
  | nan => nan
  | inf => inf
  | ninf => inf
  | fin x => fin |x|

/-- IEEE strict less-than: any comparison with NaN is false. -/
noncomputable def lt (a b : FP) : Bool :=
  match b with
  | nan => false
  | ninf => false
  | inf =>
    match a with
    | nan => false
    | inf => false
    | ninf => true
    | fin _ => true
  | fin y =>
    match a with
    | nan => false
    | inf => false
    | ninf => true
    | fin x => decide (x < y)

/-- IEEE exponential: `exp NaN = NaN`, `exp ∞ = ∞`, `exp (-∞) = 0`. -/
noncomputable def exp : FP → FP
  | nan => nan
  | inf => inf
  | ninf => fin 0
  | fin x => fin (Real.exp x)

/-- IEEE natural logarithm: `log` of a negative number (or of NaN or -∞) is
NaN, `log 0 = -∞`, `log ∞ = ∞`. -/
noncomputable def log : FP → FP
  | nan => nan
  | inf => inf
  | ninf => nan
  | fin x => if x < 0 then nan else if x = 0 then ninf else fin (Real.log x)

/-- IEEE minimum in the NaN-propagating style of `jnp.minimum`. -/
noncomputable def min : FP → FP → FP
  | nan, _ => nan
  | _, nan => nan
  | ninf, _ => ninf
  | _, ninf => ninf
  | inf, y => y
  | x, inf => x
  | fin x, fin y => fin (Min.min x y)

end FP

/-- State of the RW chain (`RWState` in random_walk.py): current position and
the current value of the log-density. -/
structure RWState (P : Type) where
  position : P
  logdensity : FP

/-- Additional information on the RW chain (`RWInfo` in random_walk.py):
acceptance probability of the transition, whether the proposed position was
accepted, and the state proposed by the proposal. -/
structure RWInfo (P : Type) where
  acceptance_rate : FP
  is_accepted : Bool
  proposal : RWState P

/-- A weighted proposal (`Proposal` in blackjax/mcmc/proposal.py, which is
outside src/).  Modelled from the spec: "Proposal (internal, not user-facing):
{ state: ChainState, energy: real, weight: real (log-scale, may be +∞) }". -/
structure Proposal (P : Type) where
  state : RWState P
  energy : FP
  weight : FP

/-- `init` from random_walk.py: create a chain state from a position by
evaluating the log-density once. -/
def init {P : Type} (position : P) (logdensity_fn : P → FP) : RWState P :=
  ⟨position, logdensity_fn position⟩

/-- `build_rmh_transition_energy` from random_walk.py: with no
`proposal_logdensity_fn` the energy of a transition is `-new_state.logdensity`;
with one it is `-new_state.logdensity - proposal_logdensity_fn(new_state,
prev_state)`. -/
def build_rmh_transition_energy {P : Type}
    (proposal_logdensity_fn : Option (RWState P → RWState P → FP)) :
    RWState P → RWState P → FP :=
  match proposal_logdensity_fn with
  | none => fun _prev_state new_state => FP.neg new_state.logdensity
  | some q => fun prev_state new_state =>
      FP.sub (FP.neg new_state.logdensity) (q new_state prev_state)

/-- Modelled from the spec: `asymmetric_proposal_generator` from
blackjax/mcmc/proposal.py, which is outside src/.  Per spec section 4.2, given
`energy(prev, cand)` and a divergence threshold, it exposes `init(state)`
(wrapping a state with energy 0 and the weight sentinel -∞) and
`generate(previous, candidate)`, which computes the energy difference of the
candidate against the reverse-direction baseline, flags candidates whose
energy-difference magnitude exceeds the threshold as divergent, and returns a
proposal carrying `weight = -Δenergy` in log-space. -/
noncomputable def asymmetric_proposal_generator {P : Type}
    (transition_energy : RWState P → RWState P → FP)
    (divergence_threshold : FP) :
    (RWState P → Proposal P) × (RWState P → RWState P → Proposal P × Bool) :=
  (fun state => ⟨state, FP.fin 0, FP.ninf⟩,
   fun previous candidate =>
     let new_energy := transition_energy previous candidate
     let prev_energy := transition_energy candidate previous
     let delta_energy := FP.sub new_energy prev_energy
     (⟨candidate, new_energy, FP.neg delta_energy⟩,
      FP.lt divergence_threshold (FP.abs delta_energy)))

/-- Modelled from the spec: `static_binomial_sampling` from
blackjax/mcmc/proposal.py, which is outside src/.  Per spec section 4.3 the
acceptance probability is `p = min(1, exp(log_ratio))` and the accept/reject
draw is done in log-space: accept the new proposal iff `log u < log_ratio` for
a uniform `u`.  Per the spec's section 4.4 note, the previous state's proposal
is the baseline candidate with weight 0, so `log_ratio` is the new proposal's
weight.  Returns the chosen proposal, the accept flag and `p`. -/
noncomputable def static_binomial_sampling {P K : Type} (unif : K → ℝ)
    (rng_key : K) (proposal new_proposal : Proposal P) :
    Proposal P × Bool × FP :=
  let log_ratio := new_proposal.weight
  let p_accept := FP.min (FP.fin 1) (FP.exp log_ratio)
  let do_accept := FP.lt (FP.log (FP.fin (unif rng_key))) log_ratio
  ((if do_accept then new_proposal else proposal), do_accept, p_accept)

/-- `rmh_proposal` from random_walk.py: build the one-step trajectory (draw a
new position and recompute its log-density), wrap previous and candidate in
proposals, and sample one of them.  The divergence flag returned by
`generate_proposal` is discarded, exactly as in the source.  `split` stands
for `jax.random.split` and `unif`-based sampling is supplied through
`sample_proposal` (the source's default is `static_binomial_sampling`). -/
def rmh_proposal {P K : Type} (split : K → K × K)
    (logdensity_fn : P → FP) (transition_distribution : K → P → P)
    (init_proposal : RWState P → Proposal P)
    (generate_proposal : RWState P → RWState P → Proposal P × Bool)
    (sample_proposal : K → Proposal P → Proposal P → Proposal P × Bool × FP) :
    K → RWState P → Proposal P × Bool × FP :=
  let build_trajectory := fun (rng_key : K) (initial_state : RWState P) =>
    let new_position := transition_distribution rng_key initial_state.position
    RWState.mk new_position (logdensity_fn new_position)
  fun rng_key state =>
    let keys := split rng_key
    let key_proposal := keys.1
    let key_accept := keys.2
    let end_state := build_trajectory key_proposal state
    let new_proposal := (generate_proposal state end_state).1
    let previous_proposal := init_proposal state
    sample_proposal key_accept previous_proposal new_proposal

/-- The kernel returned by `build_rmh` in random_walk.py: build the transition
energy, the proposal generator (with divergence threshold `np.inf`) and the
rmh proposal sampler, run one accept/reject step, and return the new state
together with `RWInfo(p_accept, do_accept, new_state)`. -/
noncomputable def build_rmh {P K : Type} (split : K → K × K) (unif : K → ℝ)
    (rng_key : K) (state : RWState P) (logdensity_fn : P → FP)
    (transition_generator : K → P → P)
    (proposal_logdensity_fn : Option (RWState P → RWState P → FP)) :
    RWState P × RWInfo P :=
  let transition_energy := build_rmh_transition_energy proposal_logdensity_fn
  let gens := asymmetric_proposal_generator transition_energy FP.inf
  let proposal_generator := rmh_proposal split logdensity_fn
    transition_generator gens.1 gens.2 (static_binomial_sampling unif)
  let res := proposal_generator rng_key state
  let new_state := res.1.state
  (new_state, ⟨res.2.2, res.2.1, new_state⟩)

/-- The kernel returned by `build_additive_step` in random_walk.py: fix the
proposal generator to `position + random_step(key, position)` (elementwise
tree addition, `tree_add` standing for `jax.tree_util.tree_map(jnp.add, ·, ·)`)
and delegate to `build_rmh` with no `proposal_logdensity_fn`. -/
noncomputable def build_additive_step {P K : Type} (split : K → K × K)
    (unif : K → ℝ) (tree_add : P → P → P)
    (rng_key : K) (state : RWState P) (logdensity_fn : P → FP)
    (random_step : K → P → P) : RWState P × RWInfo P :=
  let proposal_generator := fun (key_proposal : K) (position : P) =>
    let move_proposal := random_step key_proposal position
    tree_add position move_proposal
  build_rmh split unif rng_key state logdensity_fn proposal_generator none

/-- A JAX array as far as `normal` observes it: only its shape (hence its
rank, `jnp.ndim`) matters to the construction-time check. -/
structure Arr where
  shape : List Nat

/-- `jnp.ndim`: the rank of the array. -/
def Arr.ndim (a : Arr) : Nat := a.shape.length

/-- `normal` from random_walk.py: raise (model: `Except.error`) when `sigma`
has rank greater than 2, otherwise return the `propose` closure, which defers
to `generate_gaussian_noise` (a collaborator from blackjax.util, outside src/,
kept opaque). -/
def normal {P K : Type} (generate_gaussian_noise : K → P → Arr → P)
    (sigma : Arr) : Except String (K → P → P) :=
  if Arr.ndim sigma > 2 then
    Except.error "sigma must be a vector or a matrix."
  else
    Except.ok (fun rng_key position => generate_gaussian_noise rng_key position sigma)

/-- The candidate state generated inside one `build_rmh` invocation: the
transition generator applied to the proposal substream and the previous
position, with the log-density recomputed at the new position (the source's
`build_trajectory`). -/
def rmh_candidate {P K : Type} (split : K → K × K) (rng_key : K)
    (state : RWState P) (logdensity_fn : P → FP)
    (transition_generator : K → P → P) : RWState P :=
  let new_position := transition_generator (split rng_key).1 state.position
  ⟨new_position, logdensity_fn new_position⟩

/-- The log-acceptance weight carried by the candidate proposal: minus the
energy difference of the candidate transition against the reverse-direction
baseline. -/
def rmh_weight {P : Type} (transition_energy : RWState P → RWState P → FP)
    (state candidate : RWState P) : FP :=
  FP.neg (FP.sub (transition_energy state candidate)
    (transition_energy candidate state))

/-- Unfolding lemma: one `build_rmh` kernel invocation, written out.  The
chosen proposal is the candidate when the log-space accept test fires and the
previous state's baseline proposal otherwise; the info records the acceptance
probability, the accept flag, and the state that was returned. -/
lemma build_rmh_eq {P K : Type} (split : K → K × K) (unif : K → ℝ)
    (rng_key : K) (state : RWState P) (logdensity_fn : P → FP)
    (transition_generator : K → P → P)
    (proposal_logdensity_fn : Option (RWState P → RWState P → FP)) :
    build_rmh split unif rng_key state logdensity_fn transition_generator
        proposal_logdensity_fn =
      let te := build_rmh_transition_energy proposal_logdensity_fn
      let cand := rmh_candidate split rng_key state logdensity_fn
        transition_generator
      let w := rmh_weight te state cand
      let b := FP.lt (FP.log (FP.fin (unif (split rng_key).2))) w
      let chosen := if b then (⟨cand, te state cand, w⟩ : Proposal P)
        else ⟨state, FP.fin 0, FP.ninf⟩
      (chosen.state, ⟨FP.min (FP.fin 1) (FP.exp w), b, chosen.state⟩) := rfl

/-- The accept flag of one `build_rmh` invocation is the log-space accept
test. -/
lemma build_rmh_is_accepted_eq {P K : Type} (split : K → K × K) (unif : K → ℝ)
    (rng_key : K) (state : RWState P) (logdensity_fn : P → FP)
    (transition_generator : K → P → P)
    (proposal_logdensity_fn : Option (RWState P → RWState P → FP)) :
    (build_rmh split unif rng_key state logdensity_fn transition_generator
        proposal_logdensity_fn).2.is_accepted =
      FP.lt (FP.log (FP.fin (unif (split rng_key).2)))
        (rmh_weight (build_rmh_transition_energy proposal_logdensity_fn) state
          (rmh_candidate split rng_key state logdensity_fn
            transition_generator)) := rfl

/-- The acceptance probability of one `build_rmh` invocation is
`min(1, exp(weight))`. -/
lemma build_rmh_acceptance_rate_eq {P K : Type} (split : K → K × K)
    (unif : K → ℝ) (rng_key : K) (state : RWState P) (logdensity_fn : P → FP)
    (transition_generator : K → P → P)
    (proposal_logdensity_fn : Option (RWState P → RWState P → FP)) :
    (build_rmh split unif rng_key state logdensity_fn transition_generator
        proposal_logdensity_fn).2.acceptance_rate =
      FP.min (FP.fin 1)
        (FP.exp (rmh_weight
          (build_rmh_transition_energy proposal_logdensity_fn) state
          (rmh_candidate split rng_key state logdensity_fn
            transition_generator))) := rfl

/-- The state returned by one `build_rmh` invocation is the candidate if the
accept test fires, the unchanged previous state otherwise. -/
lemma build_rmh_state_eq {P K : Type} (split : K → K × K) (unif : K → ℝ)
    (rng_key : K) (state : RWState P) (logdensity_fn : P → FP)
    (transition_generator : K → P → P)
    (proposal_logdensity_fn : Option (RWState P → RWState P → FP)) :
    (build_rmh split unif rng_key state logdensity_fn transition_generator
        proposal_logdensity_fn).1 =
      if FP.lt (FP.log (FP.fin (unif (split rng_key).2)))
          (rmh_weight (build_rmh_transition_energy proposal_logdensity_fn)
            state (rmh_candidate split rng_key state logdensity_fn
              transition_generator))
      then rmh_candidate split rng_key state logdensity_fn transition_generator
      else state := by
  rw [build_rmh_eq]
  simp only [apply_ite (Proposal.state (P := P))]

/-- Auxiliary: `min(1, exp w)` is NaN or a finite value in `[0, 1]`. -/
lemma min_one_exp_cases (w : FP) :
    FP.min (FP.fin 1) (FP.exp w) = FP.nan ∨
      ∃ x : ℝ, FP.min (FP.fin 1) (FP.exp w) = FP.fin x ∧ 0 ≤ x ∧ x ≤ 1 := by
  cases w with
  | nan => exact Or.inl rfl
  | inf => exact Or.inr ⟨1, rfl, by norm_num⟩
  | ninf => exact Or.inr ⟨Min.min 1 0, rfl, by norm_num⟩
  | fin x =>
      exact Or.inr ⟨Min.min 1 (Real.exp x), rfl,
        le_min (by norm_num) (Real.exp_nonneg x), min_le_left 1 (Real.exp x)⟩

/-- C3: for every pair of states, the energy function returned by
`build_rmh_transition_energy` evaluates to `-candidate.logdensity` when no
proposal log-density `q` is supplied, and to
`-candidate.logdensity - q(candidate, previous)` when `q` is supplied. -/
theorem rmh_transition_energy_spec {P : Type} (q : RWState P → RWState P → FP)
    (previous candidate : RWState P) :
    build_rmh_transition_energy none previous candidate
        = FP.neg candidate.logdensity ∧
    build_rmh_transition_energy (some q) previous candidate
        = FP.sub (FP.neg candidate.logdensity) (q candidate previous) :=
  ⟨rfl, rfl⟩

/-- C2: when no `proposal_logdensity_fn` is supplied and both the previous and
the candidate log-density are finite, the acceptance probability reported by
the `build_rmh` kernel equals
`min(1, exp(candidate.logdensity - previous.logdensity))` exactly. -/
theorem rmh_symmetric_acceptance_probability {P K : Type} (split : K → K × K)
    (unif : K → ℝ) (rng_key : K) (state : RWState P) (logdensity_fn : P → FP)
    (transition_generator : K → P → P) (a b : ℝ)
    (hprev : state.logdensity = FP.fin a)
    (hcand : logdensity_fn
        (transition_generator (split rng_key).1 state.position) = FP.fin b) :
    (build_rmh split unif rng_key state logdensity_fn transition_generator
        none).2.acceptance_rate
      = FP.fin (Min.min 1 (Real.exp (b - a))) := by
  rw [build_rmh_acceptance_rate_eq]
  simp only [rmh_weight, rmh_candidate, build_rmh_transition_energy, hprev,
    hcand, FP.neg, FP.sub, FP.exp, FP.min]
  ring_nf

/-- C2 witness: at a concrete symmetric invocation with previous and candidate
log-density both `0`, the reported acceptance probability is
`min(1, exp(0 - 0))`. -/
theorem rmh_symmetric_acceptance_probability_witness :
    (build_rmh (P := Unit) (K := Unit) (fun _ => ((), ()))
        (fun _ => (1 : ℝ) / 2) () ⟨(), FP.fin 0⟩ (fun _ => FP.fin 0)
        (fun _ p => p) none).2.acceptance_rate
      = FP.fin (Min.min 1 (Real.exp (0 - 0))) :=
  rmh_symmetric_acceptance_probability _ _ _ _ _ _ 0 0 rfl rfl

/-- C4: if the log-density function returns NaN at the candidate position
drawn in a kernel step, the accept flag of that step's `RWInfo` is false and
the returned state is the previous state: a NaN acceptance weight never
becomes an accept. -/
theorem rmh_nan_candidate_rejected {P K : Type} (split : K → K × K)
    (unif : K → ℝ) (rng_key : K) (state : RWState P) (logdensity_fn : P → FP)
    (transition_generator : K → P → P)
    (proposal_logdensity_fn : Option (RWState P → RWState P → FP))
    (hnan : logdensity_fn
        (transition_generator (split rng_key).1 state.position) = FP.nan) :
    (build_rmh split unif rng_key state logdensity_fn transition_generator
        proposal_logdensity_fn).2.is_accepted = false ∧
    (build_rmh split unif rng_key state logdensity_fn transition_generator
        proposal_logdensity_fn).1 = state := by
  have hw : rmh_weight (build_rmh_transition_energy proposal_logdensity_fn)
      state (rmh_candidate split rng_key state logdensity_fn
        transition_generator) = FP.nan := by
    rcases proposal_logdensity_fn with _ | q <;>
      simp [rmh_weight, rmh_candidate, build_rmh_transition_energy, hnan,
        FP.neg, FP.sub]
  refine ⟨?_, ?_⟩
  · rw [build_rmh_is_accepted_eq, hw]
    rfl
  · rw [build_rmh_state_eq, hw]
    rfl

/-- C4 witness: at a concrete invocation whose log-density function is
constantly NaN, the step rejects and returns the previous state. -/
theorem rmh_nan_candidate_rejected_witness :
    (build_rmh (P := Unit) (K := Unit) (fun _ => ((), ()))
        (fun _ => (1 : ℝ) / 2) () ⟨(), FP.fin 0⟩ (fun _ => FP.nan)
        (fun _ p => p) none).2.is_accepted = false ∧
    (build_rmh (P := Unit) (K := Unit) (fun _ => ((), ()))
        (fun _ => (1 : ℝ) / 2) () ⟨(), FP.fin 0⟩ (fun _ => FP.nan)
        (fun _ p => p) none).1 = ⟨(), FP.fin 0⟩ :=
  rmh_nan_candidate_rejected _ _ _ _ _ _ _ rfl

/-- C5: the kernel built by `build_additive_step` produces exactly the same
(state, info) output as the kernel built by `build_rmh` called with the
transition generator `position + random_step(key, position)` (elementwise
tree addition) and no `proposal_logdensity_fn`. -/
theorem additive_step_is_rmh_specialization {P K : Type} (split : K → K × K)
    (unif : K → ℝ) (tree_add : P → P → P) (rng_key : K) (state : RWState P)
    (logdensity_fn : P → FP) (random_step : K → P → P) :
    build_additive_step split unif tree_add rng_key state logdensity_fn
        random_step
      = build_rmh split unif rng_key state logdensity_fn
          (fun key position => tree_add position (random_step key position))
          none := rfl

/-- C6: given identical RNG key and identical inputs, two invocations of the
`build_rmh` kernel produce identical outputs — the kernel is a pure function
of its arguments. -/
theorem rmh_kernel_deterministic {P K : Type} (split : K → K × K)
    (unif : K → ℝ) (k₁ k₂ : K) (s₁ s₂ : RWState P) (f₁ f₂ : P → FP)
    (g₁ g₂ : K → P → P) (q₁ q₂ : Option (RWState P → RWState P → FP))
    (hk : k₁ = k₂) (hs : s₁ = s₂) (hf : f₁ = f₂) (hg : g₁ = g₂)
    (hq : q₁ = q₂) :
    build_rmh split unif k₁ s₁ f₁ g₁ q₁ = build_rmh split unif k₂ s₂ f₂ g₂ q₂
      := by
  rw [hk, hs, hf, hg, hq]

/-- C6 witness: two syntactically identical concrete invocations coincide. -/
theorem rmh_kernel_deterministic_witness :
    build_rmh (P := Unit) (K := Unit) (fun _ => ((), ()))
        (fun _ => (1 : ℝ) / 2) () ⟨(), FP.fin 0⟩ (fun _ => FP.fin 0)
        (fun _ p => p) none
      = build_rmh (fun _ => ((), ())) (fun _ => (1 : ℝ) / 2) ()
        ⟨(), FP.fin 0⟩ (fun _ => FP.fin 0) (fun _ p => p) none :=
  rmh_kernel_deterministic _ _ _ _ _ _ _ _ _ _ _ _ rfl rfl rfl rfl rfl

/-- C7: `normal` raises at construction time exactly when `sigma` has rank
greater than 2; for rank at most 2 it returns the propose closure without
error. -/
theorem normal_raises_iff_rank_gt_two {P K : Type}
    (generate_gaussian_noise : K → P → Arr → P) (sigma : Arr) :
    (2 < Arr.ndim sigma →
      normal generate_gaussian_noise sigma
        = Except.error "sigma must be a vector or a matrix.") ∧
    (Arr.ndim sigma ≤ 2 →
      normal generate_gaussian_noise sigma
        = Except.ok (fun rng_key position =>
            generate_gaussian_noise rng_key position sigma)) := by
  refine ⟨fun h => ?_, fun h => ?_⟩
  · simp [normal, h]
  · simp [normal, Nat.not_lt.mpr h]

/-- C7 witness: a rank-3 `sigma` is rejected at construction and a scalar
(rank-0) `sigma` yields the propose closure. -/
theorem normal_raises_iff_rank_gt_two_witness :
    normal (P := Unit) (K := Unit) (fun _ _ _ => ()) ⟨[1, 1, 1]⟩
      = Except.error "sigma must be a vector or a matrix." ∧
    normal (P := Unit) (K := Unit) (fun _ _ _ => ()) ⟨[]⟩
      = Except.ok (fun rng_key position =>
          (fun _ _ _ => ()) rng_key position (⟨[]⟩ : Arr)) :=
  ⟨(normal_raises_iff_rank_gt_two _ _).1 (by decide),
   (normal_raises_iff_rank_gt_two _ _).2 (by decide)⟩

/-- A chain state is consistent when its stored log-density equals the target
log-density evaluated at its position. -/
def logdensity_consistent {P : Type} (logdensity_fn : P → FP)
    (s : RWState P) : Prop :=
  s.logdensity = logdensity_fn s.position

/-- C8: `init` establishes the invariant `logdensity = logdensity_fn
position`, and a `build_rmh` kernel step preserves it: whichever of the
previous state and the candidate is returned satisfies it again. -/
theorem rwstate_logdensity_invariant {P K : Type} (split : K → K × K)
    (unif : K → ℝ) (rng_key : K) (state : RWState P) (logdensity_fn : P → FP)
    (transition_generator : K → P → P)
    (proposal_logdensity_fn : Option (RWState P → RWState P → FP))
    (position : P)
    (hstate : logdensity_consistent logdensity_fn state) :
    logdensity_consistent logdensity_fn (init position logdensity_fn) ∧
    logdensity_consistent logdensity_fn
      (build_rmh split unif rng_key state logdensity_fn transition_generator
        proposal_logdensity_fn).1 := by
  refine ⟨rfl, ?_⟩
  rw [build_rmh_state_eq]
  split
  · rfl
  · exact hstate

/-- C8 witness: the invariant holds for a concrete `init` state and for the
state returned by a concrete kernel step starting from a consistent state. -/
theorem rwstate_logdensity_invariant_witness :
    logdensity_consistent (fun _ => FP.fin 0)
      (init () (fun _ => FP.fin 0)) ∧
    logdensity_consistent (fun _ => FP.fin 0)
      (build_rmh (P := Unit) (K := Unit) (fun _ => ((), ()))
        (fun _ => (1 : ℝ) / 2) () ⟨(), FP.fin 0⟩ (fun _ => FP.fin 0)
        (fun _ p => p) none).1 :=
  rwstate_logdensity_invariant _ _ _ _ _ _ _ _ rfl

/-- C9: the state returned by a `build_rmh` kernel invocation is exactly one
of two values: the generated candidate when the accept flag is true, and the
unchanged previous input state when it is false. -/
theorem rmh_returns_candidate_or_previous {P K : Type} (split : K → K × K)
    (unif : K → ℝ) (rng_key : K) (state : RWState P) (logdensity_fn : P → FP)
    (transition_generator : K → P → P)
    (proposal_logdensity_fn : Option (RWState P → RWState P → FP)) :
    (build_rmh split unif rng_key state logdensity_fn transition_generator
        proposal_logdensity_fn).1
      = if (build_rmh split unif rng_key state logdensity_fn
            transition_generator proposal_logdensity_fn).2.is_accepted
        then rmh_candidate split rng_key state logdensity_fn
          transition_generator
        else state := by
  rw [build_rmh_state_eq, build_rmh_is_accepted_eq]

/-- C10: the acceptance probability reported in `RWInfo` by a `build_rmh`
kernel invocation is either NaN (the degenerate case) or a finite value in
`[0, 1]`. -/
theorem acceptance_rate_in_unit_interval {P K : Type} (split : K → K × K)
    (unif : K → ℝ) (rng_key : K) (state : RWState P) (logdensity_fn : P → FP)
    (transition_generator : K → P → P)
    (proposal_logdensity_fn : Option (RWState P → RWState P → FP)) :
    (build_rmh split unif rng_key state logdensity_fn transition_generator
        proposal_logdensity_fn).2.acceptance_rate = FP.nan ∨
    ∃ x : ℝ,
      (build_rmh split unif rng_key state logdensity_fn transition_generator
          proposal_logdensity_fn).2.acceptance_rate = FP.fin x ∧
      0 ≤ x ∧ x ≤ 1 := by
  rw [build_rmh_acceptance_rate_eq]
  exact min_one_exp_cases _

/-- C1: the source (random_walk.py line 264) returns
`RWInfo(p_accept, do_accept, new_state)` where `new_state` is the sampled
state, so on a rejected step the info's `proposal` field reports the previous
state rather than the generated candidate.  Concrete rejecting run: previous
position `false` with log-density `0`, transition generator moving to `true`
where the log-density is `-∞` (so the step surely rejects): the accept flag is
false, the candidate generated in the step is `⟨true, -∞⟩`, yet the info's
`proposal` field holds the previous state `⟨false, 0⟩`, a different state. -/
theorem rwinfo_proposal_reports_sampled_state_on_rejection :
    (build_rmh (P := Bool) (K := Unit) (fun _ => ((), ()))
        (fun _ => (1 : ℝ) / 2) () ⟨false, FP.fin 0⟩
        (fun p => if p then FP.ninf else FP.fin 0) (fun _ _ => true)
        none).2.is_accepted = false ∧
    rmh_candidate (P := Bool) (K := Unit) (fun _ => ((), ())) ()
        ⟨false, FP.fin 0⟩ (fun p => if p then FP.ninf else FP.fin 0)
        (fun _ _ => true) = ⟨true, FP.ninf⟩ ∧
    (build_rmh (P := Bool) (K := Unit) (fun _ => ((), ()))
        (fun _ => (1 : ℝ) / 2) () ⟨false, FP.fin 0⟩
        (fun p => if p then FP.ninf else FP.fin 0) (fun _ _ => true)
        none).2.proposal = ⟨false, FP.fin 0⟩ ∧
    (⟨false, FP.fin 0⟩ : RWState Bool) ≠ ⟨true, FP.ninf⟩ := by
  refine ⟨rfl, rfl, rfl, fun h => ?_⟩
  exact Bool.noConfusion (congrArg RWState.position h)
